import Mathlib

/-!
# Verification of the Sign-AI-Platform backend against its specification

Shallow embedding of the parts of the backend needed to settle the frozen
claims: the translation route's language detection, the WebSocket connection
registry, the dual translator's cache, the ST-GCN adjacency partitions, the
sign-recognition smoothing filter, audio normalization, the BLEU evaluator,
the global exception handler, the sign-grammar word-order conversion, and the
speaker database's verification.

Python floats are modelled as `ℚ` where only field arithmetic occurs and as
`ℝ` where square roots, powers or exponentials occur.  Python dicts are
modelled as insertion-ordered association lists, matching CPython's
iteration-order guarantee.
-/

namespace SignAI

/-! ## Translation routes (`backend/api/routes/translation.py`) -/

/-- An HTTP error raised via `HTTPException(status_code=..., detail=...)`. -/
structure HTTPError where
  status_code : Nat
  detail : String
deriving Repr, DecidableEq

/-- The success payload returned by `GET /translation/detect`
(`detect_language` in `translation.py`). -/
structure DetectResponse where
  success : Bool
  text : String
  detected_language : String
  language_name : String
  confidence : ℚ
deriving Repr, DecidableEq

/-- `'一' <= char <= '鿿'`: membership in the CJK Unified
Ideographs range, compared on code points as Python compares characters. -/
def isCJK (c : Char) : Bool := 0x4e00 ≤ c.toNat && c.toNat ≤ 0x9fff

/-- `not text or not text.strip()`: the string is empty or consists of
whitespace only. -/
def isBlank (text : String) : Bool := text.toList.all (·.isWhitespace)

/-- `detect_language` from `backend/api/routes/translation.py`: empty or
blank text raises a 400 `HTTPException`; any CJK character yields
`zh`/0.95, otherwise `en`/0.88.  (The logger calls have no effect on the
result and are dropped; the final `except Exception` arm is unreachable as
no statement on the success path raises.) -/
def detect_language (text : String) : Except HTTPError DetectResponse :=
  if isBlank text then
    .error ⟨400, "文本不能为空"⟩
  else if text.toList.any isCJK then
    .ok ⟨true, text, "zh", "Chinese", 95/100⟩
  else
    .ok ⟨true, text, "en", "English", 88/100⟩

/-! ## ST-GCN adjacency construction (`backend/services/stgcn_model.py`) -/

/-- The `links` list of `STGCN._build_adjacency_matrix`: the hand's
kinematic chain (wrist to the five finger bases, then each finger's three
sequential joints). -/
def hand_links : List (Nat × Nat) :=
  [(0, 1), (0, 5), (0, 9), (0, 13), (0, 17),
   (1, 2), (2, 3), (3, 4),
   (5, 6), (6, 7), (7, 8),
   (9, 10), (10, 11), (11, 12),
   (13, 14), (14, 15), (15, 16),
   (17, 18), (18, 19), (19, 20)]

/-- The value of `adj_matrix` after the link loop (`adj_matrix[i, j] = 1`,
`adj_matrix[j, i] = 1` for every link) and `np.fill_diagonal(adj_matrix, 1)`:
starting from `np.zeros`, an entry is 1 on the diagonal and at every
(symmetrized) link, 0 elsewhere. -/
def adj_matrix (i j : Fin 21) : ℕ :=
  if i = j then 1
  else if (i.val, j.val) ∈ hand_links ∨ (j.val, i.val) ∈ hand_links then 1
  else 0

/-- `A_self = np.eye(num_nodes)`. -/
def A_self (i j : Fin 21) : ℕ := if i = j then 1 else 0

/-- `A_centripetal = np.where((adj_matrix > 0) & (adj_matrix < 2), 1, 0)`
followed by `np.fill_diagonal(A_centripetal, 0)`. -/
def A_centripetal (i j : Fin 21) : ℕ :=
  if i = j then 0
  else if 0 < adj_matrix i j ∧ adj_matrix i j < 2 then 1 else 0

/-- `A_centrifugal = np.where(adj_matrix >= 2, 1, 0)` followed by
`np.fill_diagonal(A_centrifugal, 0)`. -/
def A_centrifugal (i j : Fin 21) : ℕ :=
  if i = j then 0
  else if 2 ≤ adj_matrix i j then 1 else 0

/-! ## WebSocket connection registry (`backend/api/config.py`) -/

/-- A live WebSocket handle.  `sendOk` is an oracle recording whether
`send_json` on this socket succeeds (`true`) or raises (`false`); the
registry's behaviour depends on nothing else about the socket. -/
structure WebSocket where
  sendOk : Bool
deriving Repr, DecidableEq

/-- `ConnectionManager` state: `active_connections` (a dict from client id
to socket, modelled as an insertion-ordered association list) and the
`connection_count` counter (an `Int`: the source decrements it
unconditionally on a successful removal). -/
structure ConnectionManager where
  active_connections : List (String × WebSocket)
  connection_count : Int
deriving Repr, DecidableEq

namespace ConnectionManager

/-- `__init__`: empty dict, zero count. -/
def init : ConnectionManager := ⟨[], 0⟩

/-- The dict's key list, in insertion order. -/
def keys (m : ConnectionManager) : List String := m.active_connections.map (·.1)

/-- `connect`: stores the handle under `client_id` (dict assignment keeps an
existing key's position on overwrite) and increments the count. -/
def connect (m : ConnectionManager) (ws : WebSocket) (client_id : String) :
    ConnectionManager :=
  if client_id ∈ m.keys then
    ⟨m.active_connections.map (fun p => if p.1 = client_id then (p.1, ws) else p),
     m.connection_count + 1⟩
  else
    ⟨m.active_connections ++ [(client_id, ws)], m.connection_count + 1⟩

/-- `disconnect`: removes the entry if present and decrements the count;
idempotent no-op when the id is absent. -/
def disconnect (m : ConnectionManager) (client_id : String) : ConnectionManager :=
  if client_id ∈ m.keys then
    ⟨m.active_connections.filter (fun p => p.1 != client_id),
     m.connection_count - 1⟩
  else m

/-- `send_personal_message`: unknown id returns `False` with the state
untouched; a failing send disconnects the client and returns `False`. -/
def send_personal_message (m : ConnectionManager) (client_id : String) :
    Bool × ConnectionManager :=
  match m.active_connections.find? (fun p => p.1 == client_id) with
  | some (_, ws) =>
      if ws.sendOk then (true, m) else (false, m.disconnect client_id)
  | none => (false, m)

/-- Python truthiness of
`if exclude_client_id and client_id == exclude_client_id: continue`:
an entry is skipped iff the exclusion argument is present, non-empty
(a falsy `""` disables exclusion), and equal to the entry's id. -/
def excludedBy (exclude_client_id : Option String) (client_id : String) : Bool :=
  match exclude_client_id with
  | some e => e != "" && client_id == e
  | none => false

/-- The `broadcast` loop body: walks the connections in dict order and
returns (ids delivered to, ids whose send raised), in iteration order. -/
def broadcastLoop (conns : List (String × WebSocket))
    (ex : Option String) : List String × List String :=
  match conns with
  | [] => ([], [])
  | (id, ws) :: rest =>
    let df := broadcastLoop rest ex
    if excludedBy ex id then df
    else if ws.sendOk then (id :: df.1, df.2) else (df.1, id :: df.2)

/-- `broadcast`: sends to every non-excluded connection, collecting the
failures, then disconnects each failed client after the loop completes;
returns the list of delivered ids alongside the new state. -/
def broadcast (m : ConnectionManager) (ex : Option String) :
    List String × ConnectionManager :=
  let df := broadcastLoop m.active_connections ex
  (df.1, df.2.foldl (fun st id => st.disconnect id) m)

/-- `get_connection_count`. -/
def get_connection_count (m : ConnectionManager) : Int := m.connection_count

/-- `is_connected`. -/
def is_connected (m : ConnectionManager) (client_id : String) : Bool :=
  client_id ∈ m.keys

end ConnectionManager

/-! ## Dual translator cache (`backend/services/dual_translator.py`) -/

/-- `TranslationCache` state: capacity, TTL (seconds, the source holds a
float-compared quantity), and the dict `cache : key → (result, timestamp)`
as an insertion-ordered association list.  The source keys entries by the
MD5 hex digest of `f"{direction}:{content}"`; the digest is modelled by its
preimage string (a collision-free stand-in — the claims depend on the key
only through "identical arguments give identical keys"). -/
structure TranslationCache (α : Type) where
  cache_size : Nat
  ttl : ℚ
  cache : List (String × α × ℚ)

namespace TranslationCache

/-- `_generate_key`: the digested string `f"{direction}:{content}"`. -/
def generate_key (content direction : String) : String :=
  direction ++ ":" ++ content

/-- Dict lookup `self.cache[key]`. -/
def lookup {α} (c : TranslationCache α) (key : String) : Option (α × ℚ) :=
  (c.cache.find? (fun e => e.1 == key)).map (·.2)

/-- `get`: a hit younger than the TTL returns the stored result and leaves
the dict alone; an entry at or beyond the TTL is deleted (lazy purge) and
the call misses; an absent key misses.  Returns the result together with
the possibly-updated cache. -/
def get {α} (c : TranslationCache α) (content direction : String) (now : ℚ) :
    Option α × TranslationCache α :=
  let key := generate_key content direction
  match c.lookup key with
  | some (result, timestamp) =>
      if now - timestamp < c.ttl then (some result, c)
      else (none, { c with cache := c.cache.filter (fun e => e.1 != key) })
  | none => (none, c)

/-- The entry of minimal timestamp, ties resolved to the earliest in
insertion order — `min(self.cache.keys(), key=lambda k: self.cache[k][1])`.
`none` on an empty dict, where the Python `min` would raise `ValueError`
(reachable only with `cache_size = 0`, which no caller constructs). -/
def oldestEntry {α} : List (String × α × ℚ) → Option (String × α × ℚ)
  | [] => none
  | e :: rest =>
      match oldestEntry rest with
      | none => some e
      | some b => if b.2.2 < e.2.2 then some b else some e

/-- The eviction step of `set`: when the dict has reached capacity, the
oldest-inserted entry is deleted. -/
def evictIfFull {α} (c : TranslationCache α) : List (String × α × ℚ) :=
  if c.cache.length ≥ c.cache_size then
    match oldestEntry c.cache with
    | some b => c.cache.filter (fun e => e.1 != b.1)
    | none => c.cache
  else c.cache

/-- Dict assignment `self.cache[key] = (result, current_time)`: updates the
entry in place if the key is present, appends a new entry otherwise. -/
def dictAssign {α} (entries : List (String × α × ℚ)) (key : String)
    (result : α) (now : ℚ) : List (String × α × ℚ) :=
  if (entries.find? (fun e => e.1 == key)).isSome then
    entries.map (fun e => if e.1 == key then (key, result, now) else e)
  else
    entries ++ [(key, result, now)]

/-- `set`: when the dict has reached capacity, deletes the oldest-inserted
entry; then dict-assigns `(result, current_time)` under the key. -/
def set {α} (c : TranslationCache α) (content direction : String) (result : α)
    (now : ℚ) : TranslationCache α :=
  { c with cache :=
      dictAssign c.evictIfFull (generate_key content direction) result now }

end TranslationCache

/-- The `DualTranslator.stats` counters that `text_to_sign` touches. -/
structure DualStats where
  text_to_sign_count : Nat
  total_translations : Nat
  cache_hits : Nat
  cache_misses : Nat
deriving Repr, DecidableEq

/-- `DualTranslator` state restricted to what `text_to_sign` reads and
writes: the translation cache and the statistics counters. -/
structure DualTranslator (α : Type) where
  cache : TranslationCache α
  stats : DualStats

namespace DualTranslator

/-- A fresh `DualTranslator`: empty cache at the default capacity 1000 and
TTL 3600 s, zeroed counters. -/
def init (α : Type) : DualTranslator α := ⟨⟨1000, 3600, []⟩, ⟨0, 0, 0, 0⟩⟩

/-- `DualTranslator.text_to_sign` with `use_cache=True`: `get` keyed by the
literal text under direction `text_to_sign`; a (truthy `TranslationResult`)
hit increments `cache_hits` and returns the cached object; a miss increments
`cache_misses`, computes the result — the text-to-sign service call and the
`TranslationResult` construction are abstracted as the parameter `service`,
a function of the input text and the call time (covering the measured
`duration`) — bumps `text_to_sign_count` and `total_translations`, and
stores the result under the same key. -/
def text_to_sign {α} (service : String → ℚ → α) (s : DualTranslator α)
    (text : String) (now : ℚ) : α × DualTranslator α :=
  match s.cache.get text "text_to_sign" now with
  | (some cached, cache1) =>
      (cached,
       { s with cache := cache1,
                stats := { s.stats with cache_hits := s.stats.cache_hits + 1 } })
  | (none, cache1) =>
      let result := service text now
      (result,
       { s with
           cache := cache1.set text "text_to_sign" result now,
           stats := { s.stats with
             cache_misses := s.stats.cache_misses + 1,
             text_to_sign_count := s.stats.text_to_sign_count + 1,
             total_translations := s.stats.total_translations + 1 } })

end DualTranslator

/-! ## Sign grammar (`backend/services/sign_grammar.py`) -/

/-- The `SignLanguage` enum. -/
inductive SignLanguage where
  | ASL
  | CSL
deriving Repr, DecidableEq

/-- The separator class of `re.findall(r'[^\s,，.。、！？;；]+', sentence)`:
whitespace or one of the listed punctuation marks. -/
def isSentenceSep (c : Char) : Bool :=
  c.isWhitespace ||
    (c == ',' || c == '，' || c == '.' || c == '。' || c == '、' ||
     c == '！' || c == '？' || c == ';' || c == '；')

/-- Helper for `findWords`: maximal runs of non-separator characters. -/
def findWordsAux : List Char → List Char → List String
  | [], acc => if acc = [] then [] else [String.mk acc.reverse]
  | c :: cs, acc =>
      if isSentenceSep c then
        if acc = [] then findWordsAux cs []
        else String.mk acc.reverse :: findWordsAux cs []
      else findWordsAux cs (c :: acc)

/-- The token extraction
`words = re.findall(r'[^\s,，.。、！？;；]+', sentence)`. -/
def findWords (sentence : String) : List String :=
  findWordsAux sentence.toList []

/-- The five closed vocabulary sets a `SignGrammarProcessor` holds. -/
structure Vocabulary where
  time_expressions : List String
  place_expressions : List String
  pronouns : List String
  verbs : List String
  nouns : List String

/-- The `structure` dict of `analyze_sentence_structure`. -/
structure SentenceStructure where
  time : List String
  place : List String
  subject : List String
  verb : List String
  object : List String
  other : List String
deriving Repr, DecidableEq

/-- One iteration of the classification loop of
`analyze_sentence_structure`: four independent membership tests (time,
place, pronoun-or-noun with the subject-then-object-then-other cascade,
verb), each appending the word to its bucket and marking it categorized;
an uncategorized word goes to `other`. -/
def classifyStep (v : Vocabulary) (st : SentenceStructure) (word : String) :
    SentenceStructure :=
  let c1 := word ∈ v.time_expressions
  let st1 := if c1 then { st with time := st.time ++ [word] } else st
  let c2 := word ∈ v.place_expressions
  let st2 := if c2 then { st1 with place := st1.place ++ [word] } else st1
  let c3 := word ∈ v.pronouns ∨ word ∈ v.nouns
  let st3 :=
    if c3 then
      if st2.subject = [] ∧ st2.object = [] then
        { st2 with subject := st2.subject ++ [word] }
      else if st2.object = [] then
        { st2 with object := st2.object ++ [word] }
      else
        { st2 with other := st2.other ++ [word] }
    else st2
  let c4 := word ∈ v.verbs
  let st4 := if c4 then { st3 with verb := st3.verb ++ [word] } else st3
  if c1 ∨ c2 ∨ c3 ∨ c4 then st4 else { st4 with other := st4.other ++ [word] }

/-- `SignGrammarProcessor.analyze_sentence_structure`. -/
def analyze_sentence_structure (v : Vocabulary) (sentence : String) :
    SentenceStructure :=
  (findWords sentence).foldl (classifyStep v) ⟨[], [], [], [], [], []⟩

/-- The `ordered_parts` assembled by
`convert_to_sign_language_word_order`: CSL emits
time-place-subject-verb-object-other; ASL emits the time+place topic, the
subject+object+verb comment, then other. -/
def orderedParts (lang : SignLanguage) (st : SentenceStructure) :
    List String :=
  match lang with
  | .CSL => st.time ++ st.place ++ st.subject ++ st.verb ++ st.object ++ st.other
  | .ASL => (st.time ++ st.place) ++ (st.subject ++ st.object ++ st.verb) ++ st.other

/-- `SignGrammarProcessor.convert_to_sign_language_word_order`:
`' '.join(ordered_parts) if ordered_parts else sentence`. -/
def convert_to_sign_language_word_order (v : Vocabulary)
    (lang : SignLanguage) (sentence : String) : String :=
  let parts := orderedParts lang (analyze_sentence_structure v sentence)
  if parts = [] then sentence else String.intercalate " " parts

/-- The number of the classifier's membership tests a word satisfies (the
pronoun and noun sets share one test, as in the source's
`word in self.pronouns or word in self.nouns`). -/
def categoryCount (v : Vocabulary) (w : String) : Nat :=
  (if w ∈ v.time_expressions then 1 else 0) +
  (if w ∈ v.place_expressions then 1 else 0) +
  (if w ∈ v.pronouns ∨ w ∈ v.nouns then 1 else 0) +
  (if w ∈ v.verbs then 1 else 0)

/-- All six buckets of a `SentenceStructure`, concatenated. -/
def allParts (st : SentenceStructure) : List String :=
  st.time ++ st.place ++ st.subject ++ st.verb ++ st.object ++ st.other

/-- The concrete CSL vocabulary seeded by
`SignGrammarProcessor._initialize_vocabulary`. -/
def cslVocabulary : Vocabulary where
  time_expressions :=
    ["现在", "今天", "明天", "昨天", "刚才", "后来",
     "早晨", "晚上", "中午", "白天", "夜间",
     "以前", "以后", "总是", "经常", "偶尔",
     "星期一", "星期二", "星期三", "星期四", "星期五",
     "星期六", "星期日", "周一", "周二", "周三", "周四",
     "周五", "周六", "周日", "一", "二", "三", "四", "五", "六", "日",
     "早上", "下午", "傍晚", "深夜", "清晨"]
  place_expressions :=
    ["这里", "那里", "家", "学校", "医院", "商场",
     "北京", "上海", "广州", "深圳", "杭州",
     "办公室", "教室", "图书馆", "公园", "餐厅",
     "家", "房间", "客厅", "卧室", "厨房",
     "里面", "外面", "上面", "下面", "前面", "后面",
     "左边", "右边", "旁边", "附近", "远处"]
  pronouns :=
    ["我", "你", "他", "她", "它", "我们", "你们", "他们", "她们",
     "这", "那", "谁", "什么", "哪里", "什么时候", "怎么",
     "大家", "别人", "自己", "各自", "互相"]
  verbs :=
    ["来", "去", "看", "听", "说", "做", "吃", "喝",
     "学", "教", "帮", "喜欢", "爱", "恨", "想", "要",
     "买", "卖", "读", "写", "玩", "工作", "休息",
     "开始", "结束", "继续", "停止", "等待", "寻找",
     "认识", "了解", "相信", "怀疑", "知道", "明白",
     "给", "拿", "放", "带", "送", "拿走", "放下",
     "走", "跑", "飞", "跳", "爬", "坐", "站", "躺"]
  nouns :=
    ["书", "笔", "杯子", "桌子", "椅子", "手机", "电脑",
     "饭", "菜", "水", "桌子", "杯子", "杯子",
     "妈妈", "爸爸", "哥哥", "姐姐", "弟弟", "妹妹",
     "朋友", "老师", "学生", "医生", "护士", "警察",
     "衣服", "鞋子", "帽子", "裤子", "衣服",
     "车", "公交车", "火车", "飞机", "船",
     "天空", "太阳", "月亮", "星星", "云", "雨", "雪"]

/-! ## Exception handlers (`backend/main.py` and route-level catches) -/

/-- A Python exception as observable by a handler: its type name
(`type(exc).__name__`) and message (`str(exc)`). -/
structure PyException where
  typeName : String
  message : String
deriving Repr, DecidableEq

/-- A JSON error envelope `{success, error, status_code}`. -/
structure ErrorEnvelope where
  success : Bool
  error : String
  status_code : Nat
deriving Repr, DecidableEq

/-- `general_exception_handler` in `backend/main.py`: any uncaught exception
is logged and answered with the fixed 500 envelope
`{"success": False, "error": "服务器内部错误", "status_code": 500}`;
the exception value influences only the log line, not the response. -/
def general_exception_handler (_exc : PyException) : ErrorEnvelope :=
  ⟨false, "服务器内部错误", 500⟩

/-- `http_exception_handler` in `backend/main.py`: an `HTTPException`
becomes `{"success": False, "error": exc.detail, "status_code": exc.status_code}`
at its own status. -/
def http_exception_handler (exc : HTTPError) : ErrorEnvelope :=
  ⟨false, exc.detail, exc.status_code⟩

/-- The `except Exception` arm of the route handler `translate_text`
(`translation.py` lines 136–143): re-raises
`HTTPException(status_code=500, detail=f"翻译失败: {str(e)}")`. -/
def translate_text_catch (exc : PyException) : HTTPError :=
  ⟨500, "翻译失败: " ++ exc.message⟩

/-! ## Speaker database (`backend/utils/speaker_db.py`) -/

/-- `np.dot` of two 1-D arrays. -/
def dotProduct (a b : List ℝ) : ℝ := (List.zipWith (· * ·) a b).sum

/-- `np.linalg.norm`. -/
noncomputable def l2norm (a : List ℝ) : ℝ :=
  Real.sqrt ((a.map (fun x => x ^ 2)).sum)

/-- A stored `SpeakerProfile`, restricted to what `verify_speaker` reads:
the optional mean embedding. -/
structure SpeakerProfile where
  embedding : Option (List ℝ)

/-- `SpeakerDatabase.verify_speaker` over the in-memory `speakers_index`
dict: a missing profile (`self.speakers_index.get(speaker_id)` is `None`) or
a profile with no stored embedding returns `(False, 0.0)`; otherwise the
query is re-normalized to unit length when its norm is positive, the
similarity is its dot product with the stored mean embedding, and the match
flag is `similarity >= threshold`. -/
noncomputable def verify_speaker (idx : List (String × SpeakerProfile))
    (speaker_id : String) (query : List ℝ) (threshold : ℝ) : Bool × ℝ :=
  match idx.find? (fun p => p.1 == speaker_id) with
  | none => (false, 0)
  | some p =>
      match p.2.embedding with
      | none => (false, 0)
      | some emb =>
          let q := if 0 < l2norm query
            then query.map (fun x => x / l2norm query) else query
          (if threshold ≤ dotProduct q emb then true else false, dotProduct q emb)

/-! ## Quality evaluator (`backend/services/dual_translator.py`) -/

/-- Helper for `pysplit`: walks the characters accumulating the current
word (reversed), emitting a word at each whitespace boundary. -/
def splitWhitespaceAux : List Char → List Char → List String
  | [], acc => if acc = [] then [] else [String.mk acc.reverse]
  | c :: cs, acc =>
      if c.isWhitespace then
        if acc = [] then splitWhitespaceAux cs []
        else String.mk acc.reverse :: splitWhitespaceAux cs []
      else splitWhitespaceAux cs (c :: acc)

/-- Python `str.split()` with no argument: split on whitespace runs,
dropping empty fragments. -/
def pysplit (s : String) : List String := splitWhitespaceAux s.toList []

/-- The Python `set` of `i`-grams of `ws`: `' '.join(words[j:j+i])` for
`j in range(len(words) - i + 1)`, deduplicated.  (For `i > len(words)` the
Python range is empty; `len(words) + 1 - i` under truncated subtraction
matches it.) -/
def ngramSet (ws : List String) (i : Nat) : List String :=
  ((List.range (ws.length + 1 - i)).map
    (fun j => String.intercalate " " ((ws.drop j).take i))).dedup

/-- One iteration of the precision loop of `evaluate_bleu`: the i-gram
precision `len(ref_ngrams & hyp_ngrams) / len(hyp_ngrams)` of the
hypothesis against the reference, with the source's `if not hyp_ngrams`
guard appending 0. -/
def ngramPrecision (refW hypW : List String) (i : Nat) : ℚ :=
  if ngramSet hypW i = [] then 0
  else (((ngramSet hypW i).filter (fun g => g ∈ ngramSet refW i)).length : ℚ) /
    (ngramSet hypW i).length

/-- The `precisions` list of `evaluate_bleu`: i-gram precisions for
`i in range(1, min(n, len(hyp_words)) + 1)`. -/
def precisions (refW hypW : List String) (n : Nat) : List ℚ :=
  (List.range' 1 (min n hypW.length)).map (ngramPrecision refW hypW)

/-- `reduce(operator.mul, precisions) ** (1.0 / len(precisions))`: the
geometric mean of the precisions. -/
noncomputable def geometricMean (ps : List ℚ) : ℝ :=
  ((ps.prod : ℚ) : ℝ) ^ ((1 : ℝ) / ps.length)

/-- The brevity penalty: `exp(1 - len(ref_words)/len(hyp_words))` when the
hypothesis is shorter than the reference, 1.0 otherwise. -/
noncomputable def brevityPenalty (refW hypW : List String) : ℝ :=
  if hypW.length < refW.length then
    Real.exp (1 - (refW.length : ℝ) / hypW.length)
  else 1

/-- `TranslationQualityEvaluator.evaluate_bleu` (callers use the default
`n = 4`): the empty-string guards, the empty-hypothesis guard, the precision
loop, the geometric mean, and the conditional brevity penalty, in the
source's statement order.  (The `if not precisions` guard is live only when
`hyp_words` is empty, which the previous guard already returned on.) -/
noncomputable def evaluate_bleu (reference hypothesis : String) (n : Nat) : ℝ :=
  if reference = "" ∨ hypothesis = "" then 0
  else if pysplit hypothesis = [] then 0
  else if precisions (pysplit reference) (pysplit hypothesis) n = [] then 0
  else
    geometricMean (precisions (pysplit reference) (pysplit hypothesis) n) *
      brevityPenalty (pysplit reference) (pysplit hypothesis)

/-! ## Sign-recognition smoothing (`backend/services/sign_recognition.py`) -/

/-- `SignRecognitionService.DEFAULT_SMOOTHING_WINDOW = 5`. -/
def DEFAULT_SMOOTHING_WINDOW : Nat := 5

/-- The `prediction_history` deque after
`self.prediction_history.append((prediction, confidence))` with
`maxlen=DEFAULT_SMOOTHING_WINDOW`: append, then drop from the front down to
the window size. -/
def newHistory (hist : List (Option String × ℚ)) (prediction : Option String)
    (confidence : ℚ) : List (Option String × ℚ) :=
  (hist ++ [(prediction, confidence)]).drop
    ((hist.length + 1) - DEFAULT_SMOOTHING_WINDOW)

/-- One iteration of the counting loop of `_apply_smoothing` over
`prediction_counts` (a dict in key-first-occurrence order): `None`
predictions are skipped, a known key's count is bumped, a new key is
appended with count 1.  (The parallel `confidence_sum` dict is dead weight —
never read after the loop — and is omitted.) -/
def countStep (acc : List (String × Nat)) (e : Option String × ℚ) :
    List (String × Nat) :=
  match e.1 with
  | none => acc
  | some p =>
      if (acc.find? (fun q => q.1 == p)).isSome then
        acc.map (fun q => if q.1 == p then (q.1, q.2 + 1) else q)
      else acc ++ [(p, 1)]

/-- The `prediction_counts` dict built by `_apply_smoothing`. -/
def predictionCounts (hist : List (Option String × ℚ)) : List (String × Nat) :=
  hist.foldl countStep []

/-- `max(prediction_counts, key=lambda x: prediction_counts[x])`: the first
key in dict order attaining the maximal count (`none` on an empty dict). -/
def bestEntry : List (String × Nat) → Option (String × Nat)
  | [] => none
  | e :: rest =>
      match bestEntry rest with
      | none => some e
      | some b => if b.2 > e.2 then some b else some e

/-! ## Audio preprocessing (`backend/services/audio_preprocessor.py`) -/

/-- `np.sqrt(np.mean(audio_data ** 2))`: the RMS of the buffer.  (For an
empty buffer NumPy's mean is `0/0`; under `ℝ`'s `0/0 = 0` convention the
model returns RMS 0 and `normalize` leaves the empty buffer unchanged,
which coincides with the source's observable behaviour on empty input.) -/
noncomputable def rms (l : List ℝ) : ℝ :=
  Real.sqrt ((l.map (fun x => x ^ 2)).sum / l.length)

/-- `target_rms / rms` with `target_rms = 10 ** (target_db / 20)`:
the raw (uncapped) scale factor. -/
noncomputable def rawScale (l : List ℝ) (target_db : ℝ) : ℝ :=
  (10 : ℝ) ^ (target_db / 20) / rms l

/-- `scale_factor = min(scale_factor, 3.0)`: the applied gain. -/
noncomputable def scaleFactor (l : List ℝ) (target_db : ℝ) : ℝ :=
  min (rawScale l target_db) 3

/-- `np.clip(x, -1.0, 1.0)`. -/
noncomputable def clip (x : ℝ) : ℝ := min (max x (-1)) 1

/-- `AudioPreprocessor.normalize`: a no-op when `self.config.normalize` is
off (`enabled` models that flag) or when the RMS is zero; otherwise scales
every sample by the capped factor and hard-clips to [−1, 1].  (The
surrounding `try/except` returning the input unchanged on an internal error
has no arm to take in this total model.) -/
noncomputable def normalize (enabled : Bool) (l : List ℝ) (target_db : ℝ) :
    List ℝ :=
  if enabled = false then l
  else if rms l = 0 then l
  else l.map (fun x => clip (x * scaleFactor l target_db))

/-- `SignRecognitionService._apply_smoothing`: appends the
`(prediction, confidence)` pair to the bounded history, returns the raw
prediction while fewer than 5 entries are stored; with 5 stored, counts the
non-`None` predictions and returns the most frequent one if its count
reaches `DEFAULT_SMOOTHING_WINDOW // 2`, the raw prediction otherwise (also
when every stored prediction is `None`).  Returns the smoothed prediction
together with the new history. -/
def applySmoothing (hist : List (Option String × ℚ))
    (prediction : Option String) (confidence : ℚ) :
    Option String × List (Option String × ℚ) :=
  if (newHistory hist prediction confidence).length < DEFAULT_SMOOTHING_WINDOW then
    (prediction, newHistory hist prediction confidence)
  else
    match bestEntry (predictionCounts (newHistory hist prediction confidence)) with
    | none => (prediction, newHistory hist prediction confidence)
    | some best =>
        if DEFAULT_SMOOTHING_WINDOW / 2 ≤ best.2 then
          (some best.1, newHistory hist prediction confidence)
        else
          (prediction, newHistory hist prediction confidence)

end SignAI

namespace SignAI

/-! ## Theorems -/

/-- C1: `detect_language`: blank text fails with a 400 `InvalidInput` error;
otherwise any CJK Unified Ideograph (U+4E00–U+9FFF) in the text gives
`detected_language = "zh"` with confidence 0.95, else `"en"` with 0.88;
in particular `detect("hello world")` yields `en`/0.88, `detect("你好")`
yields `zh`/0.95, and `detect("")` raises the 400 error. -/
theorem detect_language_spec (text : String) :
    (isBlank text = true →
      detect_language text = .error ⟨400, "文本不能为空"⟩) ∧
    (isBlank text = false → text.toList.any isCJK = true →
      ∃ r, detect_language text = .ok r ∧
        r.detected_language = "zh" ∧ r.confidence = 95/100) ∧
    (isBlank text = false → text.toList.any isCJK = false →
      ∃ r, detect_language text = .ok r ∧
        r.detected_language = "en" ∧ r.confidence = 88/100) ∧
    (∃ r, detect_language "hello world" = .ok r ∧
      r.detected_language = "en" ∧ r.confidence = 88/100) ∧
    (∃ r, detect_language "你好" = .ok r ∧
      r.detected_language = "zh" ∧ r.confidence = 95/100) ∧
    (∃ e, detect_language "" = .error e ∧ e.status_code = 400) := by
  refine ⟨fun h => ?_, fun h hc => ?_, fun h hc => ?_, ?_, ?_, ?_⟩
  · simp [detect_language, h]
  · simp only [String.toList, List.any_eq_true] at hc
    exact ⟨⟨true, text, "zh", "Chinese", 95/100⟩,
      by simp [detect_language, h, hc], rfl, rfl⟩
  · simp only [String.toList, List.any_eq_false, Bool.not_eq_true] at hc
    refine ⟨⟨true, text, "en", "English", 88/100⟩, ?_, rfl, rfl⟩
    simp only [detect_language, h, Bool.false_eq_true, if_false]
    rw [if_neg]
    simp only [List.any_eq_true, not_exists, not_and]
    intro x hx
    simp [hc x hx]
  · exact ⟨⟨true, "hello world", "en", "English", 88/100⟩, by rfl, rfl, rfl⟩
  · exact ⟨⟨true, "你好", "zh", "Chinese", 95/100⟩, by rfl, rfl, rfl⟩
  · exact ⟨⟨400, "文本不能为空"⟩, by rfl, rfl⟩

/-- Witness for C1: instantiates `detect_language_spec` at the blank text
`" "`, discharging the blankness hypothesis concretely. -/
theorem detect_language_spec_witness :
    detect_language " " = .error ⟨400, "文本不能为空"⟩ :=
  (detect_language_spec " ").1 (by decide)

/-- C4 (code evaluation at the failing input): the far-centrifugal kernel
built by `STGCN._build_adjacency_matrix` is identically zero — no entry of
`adj_matrix` ever reaches 2, so `np.where(adj_matrix >= 2, 1, 0)` selects
nothing — even though distance-≥-2 pairs exist: joints 1 and 5 are both
adjacent to the wrist 0 but not to each other, so their graph distance is 2,
yet `A_centrifugal 1 5 = 0`.  The remaining invariants of the claim do hold:
the adjacency is symmetric, the self kernel is the identity, the
near-centripetal kernel holds exactly the direct-neighbor pairs, and the
three kernels sum to 1 at every off-diagonal edge position. -/
theorem centrifugal_partition_is_empty :
    (∀ i j : Fin 21, A_centrifugal i j = 0) ∧
    (adj_matrix 1 0 = 1 ∧ adj_matrix 0 5 = 1 ∧
      (1 : Fin 21) ≠ 5 ∧ adj_matrix 1 5 = 0 ∧ A_centrifugal 1 5 = 0) ∧
    (∀ i j : Fin 21, adj_matrix i j = adj_matrix j i) ∧
    (∀ i : Fin 21, A_self i i = 1) ∧
    (∀ i j : Fin 21, i ≠ j →
      (A_centripetal i j = 1 ↔ adj_matrix i j = 1)) ∧
    (∀ i j : Fin 21, i ≠ j → adj_matrix i j = 1 →
      A_self i j + A_centripetal i j + A_centrifugal i j = 1) := by
  refine ⟨?_, by decide, ?_, by decide, ?_, ?_⟩
  · decide
  · decide
  · decide
  · decide

theorem ConnectionManager.disconnect_active (m : ConnectionManager) (id : String) :
    (m.disconnect id).active_connections =
      m.active_connections.filter (fun p => p.1 != id) := by
  unfold ConnectionManager.disconnect
  split
  · rfl
  · next h =>
    rw [Eq.comm, List.filter_eq_self]
    intro p hp
    simp only [bne_iff_ne, ne_eq]
    intro hpe
    exact h (by
      simpa [ConnectionManager.keys, hpe] using List.mem_map_of_mem (·.1) hp)

theorem ConnectionManager.foldl_disconnect_active (ids : List String)
    (m : ConnectionManager) :
    (ids.foldl (fun st id => st.disconnect id) m).active_connections =
      m.active_connections.filter (fun p => !decide (p.1 ∈ ids)) := by
  induction ids generalizing m with
  | nil => simp
  | cons i rest ih =>
      rw [List.foldl_cons, ih, ConnectionManager.disconnect_active,
        List.filter_filter]
      apply List.filter_congr
      intro p _
      by_cases h1 : p.1 = i <;> by_cases h2 : p.1 ∈ rest <;>
        simp [h1, h2]

theorem ConnectionManager.broadcastLoop_eq (conns : List (String × WebSocket))
    (ex : Option String) :
    ConnectionManager.broadcastLoop conns ex =
      ((conns.filter (fun p => !ConnectionManager.excludedBy ex p.1 && p.2.sendOk)).map (·.1),
       (conns.filter
         (fun p => !ConnectionManager.excludedBy ex p.1 && !p.2.sendOk)).map (·.1)) := by
  induction conns with
  | nil => rfl
  | cons c rest ih =>
      obtain ⟨id, ws⟩ := c
      simp only [ConnectionManager.broadcastLoop, ih]
      by_cases hex : ConnectionManager.excludedBy ex id
      · simp [hex]
      · by_cases hok : ws.sendOk
        · simp [hex, hok]
        · simp only [Bool.not_eq_true] at hok
          simp [hex, hok]

theorem ConnectionManager.length_filter_ne (l : List (String × WebSocket))
    (e : String) (hnd : (l.map (·.1)).Nodup) (hmem : e ∈ l.map (·.1)) :
    (l.filter (fun p => p.1 != e)).length = l.length - 1 := by
  induction l with
  | nil => cases hmem
  | cons c rest ih =>
      simp only [List.map_cons, List.nodup_cons] at hnd
      by_cases hce : c.1 = e
      · have hrest : rest.filter (fun p => p.1 != e) = rest := by
          rw [List.filter_eq_self]
          intro p hp
          simp only [bne_iff_ne, ne_eq]
          intro hpe
          exact hnd.1 (hce ▸ hpe ▸ List.mem_map_of_mem (·.1) hp)
        simp [List.filter_cons, hce, hrest]
      · have hmem' : e ∈ rest.map (·.1) := by
          rw [List.map_cons] at hmem
          rcases List.mem_cons.1 hmem with h | h
          · exact absurd h.symm hce
          · exact h
        have hne : rest ≠ [] := by
          intro h; rw [h] at hmem'; cases hmem'
        have hlen := ih hnd.2 hmem'
        have hpos : 0 < rest.length := List.length_pos.2 hne
        rw [List.filter_cons_of_pos (by simp [hce])]
        simp only [List.length_cons, hlen]
        omega

/-- C2: from a fresh registry, `connect` then `disconnect` of any client id
leaves `count() == 0` and `is_connected(id) == False`; `send_personal` to an
id that is not connected returns `False` without touching the state;
`broadcast` excluding one id delivers to every other connection whose send
succeeds — exactly `N − 1` recipients when the registry holds `N`
connections including the excluded id and every send succeeds — and any
individual failure is isolated: the loop still attempts every other
non-excluded connection and exactly the failing connections are removed
after the loop completes. -/
theorem connection_manager_spec :
    (∀ ws id,
      ((ConnectionManager.init.connect ws id).disconnect id).get_connection_count = 0 ∧
      ((ConnectionManager.init.connect ws id).disconnect id).is_connected id = false) ∧
    (∀ (m : ConnectionManager) (id : String),
      m.is_connected id = false → m.send_personal_message id = (false, m)) ∧
    (∀ (m : ConnectionManager) (e : String), e ≠ "" →
      (m.broadcast (some e)).1 =
        (m.active_connections.filter (fun p => p.1 != e && p.2.sendOk)).map (·.1)) ∧
    (∀ (m : ConnectionManager) (e : String),
      m.keys.Nodup → e ≠ "" → e ∈ m.keys →
      (∀ p ∈ m.active_connections, p.2.sendOk = true) →
      (m.broadcast (some e)).1.length = m.active_connections.length - 1) ∧
    (∀ (m : ConnectionManager) (e : String), m.keys.Nodup → e ≠ "" →
      ((m.broadcast (some e)).2).active_connections =
        m.active_connections.filter (fun p => p.1 == e || p.2.sendOk)) := by
  have hex : ∀ (e : String), e ≠ "" → ∀ id,
      ConnectionManager.excludedBy (some e) id = (id == e) := by
    intro e he id
    simp [ConnectionManager.excludedBy, bne_iff_ne, he]
  refine ⟨?_, ?_, ?_, ?_, ?_⟩
  · intro ws id
    simp [ConnectionManager.init, ConnectionManager.connect,
      ConnectionManager.disconnect, ConnectionManager.keys,
      ConnectionManager.is_connected, ConnectionManager.get_connection_count]
  · intro m id h
    simp only [ConnectionManager.is_connected, ConnectionManager.keys,
      decide_eq_false_iff_not, List.mem_map, not_exists, not_and] at h
    have : m.active_connections.find? (fun p => p.1 == id) = none := by
      rw [List.find?_eq_none]
      intro p hp
      simp only [beq_iff_eq]
      exact fun hpe => h p hp hpe
    simp [ConnectionManager.send_personal_message, this]
  · intro m e he
    simp only [ConnectionManager.broadcast, ConnectionManager.broadcastLoop_eq]
    congr 1
    apply List.filter_congr
    intro p _
    rw [hex e he]
    simp [bne]
  · intro m e hnd he hmem hall
    simp only [ConnectionManager.broadcast, ConnectionManager.broadcastLoop_eq,
      List.length_map]
    rw [show (m.active_connections.filter
        (fun p => !ConnectionManager.excludedBy (some e) p.1 && p.2.sendOk)) =
        m.active_connections.filter (fun p => p.1 != e) from ?_]
    · exact ConnectionManager.length_filter_ne m.active_connections e hnd hmem
    · apply List.filter_congr
      intro p hp
      rw [hex e he, hall p hp]
      simp [bne]
  · intro m e hnd he
    simp only [ConnectionManager.broadcast, ConnectionManager.broadcastLoop_eq,
      ConnectionManager.foldl_disconnect_active]
    apply List.filter_congr
    intro p hp
    have hinj := List.inj_on_of_nodup_map (f := fun p : String × WebSocket => p.1) hnd
    by_cases h1 : p.1 = e
    · have hmem : ¬ p.1 ∈ ((m.active_connections.filter
          (fun q => !ConnectionManager.excludedBy (some e) q.1 && !q.2.sendOk)).map
            (·.1)) := by
        intro hcon
        obtain ⟨q, hq, hqp⟩ := List.mem_map.1 hcon
        obtain ⟨hqa, hqpred⟩ := List.mem_filter.1 hq
        rw [hex e he] at hqpred
        rw [Bool.and_eq_true, Bool.not_eq_true'] at hqpred
        rw [hqp, h1] at hqpred
        simp at hqpred
      rw [decide_eq_false hmem]
      simp [h1]
    · by_cases h2 : p.2.sendOk = true
      · have hmem : ¬ p.1 ∈ ((m.active_connections.filter
            (fun q => !ConnectionManager.excludedBy (some e) q.1 && !q.2.sendOk)).map
              (·.1)) := by
          intro hcon
          obtain ⟨q, hq, hqp⟩ := List.mem_map.1 hcon
          obtain ⟨hqa, hqpred⟩ := List.mem_filter.1 hq
          have hqep : q = p := hinj hqa hp hqp
          subst hqep
          rw [Bool.and_eq_true] at hqpred
          rw [h2] at hqpred
          simp at hqpred
        rw [decide_eq_false hmem]
        simp [h1, h2]
      · have hmem : p.1 ∈ ((m.active_connections.filter
            (fun q => !ConnectionManager.excludedBy (some e) q.1 && !q.2.sendOk)).map
              (·.1)) := by
          refine List.mem_map.2 ⟨p, List.mem_filter.2 ⟨hp, ?_⟩, rfl⟩
          rw [hex e he]
          rw [Bool.not_eq_true] at h2
          simp [h1, h2]
        rw [decide_eq_true hmem]
        rw [Bool.not_eq_true] at h2
        simp [h1, h2]

/-- Witness for C2: a three-connection registry with all sends succeeding,
broadcasting with client `"b"` excluded, delivers to exactly 2 = 3 − 1
recipients. -/
theorem connection_manager_spec_witness :
    ((⟨[("a", ⟨true⟩), ("b", ⟨true⟩), ("c", ⟨true⟩)], 3⟩ :
        ConnectionManager).broadcast (some "b")).1.length =
      (⟨[("a", ⟨true⟩), ("b", ⟨true⟩), ("c", ⟨true⟩)], 3⟩ :
        ConnectionManager).active_connections.length - 1 :=
  connection_manager_spec.2.2.2.1
    ⟨[("a", ⟨true⟩), ("b", ⟨true⟩), ("c", ⟨true⟩)], 3⟩ "b"
    (by decide) (by decide) (by decide) (by decide)

end SignAI

namespace SignAI

theorem TranslationCache.oldestEntry_spec {α : Type} (l : List (String × α × ℚ))
    (hne : l ≠ []) :
    ∃ b, TranslationCache.oldestEntry l = some b ∧ b ∈ l ∧
      ∀ e ∈ l, b.2.2 ≤ e.2.2 := by
  induction l with
  | nil => exact absurd rfl hne
  | cons e rest ih =>
      by_cases hrest : rest = []
      · subst hrest
        exact ⟨e, rfl, List.mem_singleton.2 rfl, by simp⟩
      · obtain ⟨b, hb1, hb2, hb3⟩ := ih hrest
        unfold TranslationCache.oldestEntry
        rw [hb1]
        by_cases hlt : b.2.2 < e.2.2
        · refine ⟨b, by simp [hlt], List.mem_cons_of_mem _ hb2, ?_⟩
          intro x hx
          rcases List.mem_cons.1 hx with rfl | hx'
          · exact le_of_lt hlt
          · exact hb3 x hx'
        · refine ⟨e, by simp [hlt], List.mem_cons_self _ _, ?_⟩
          intro x hx
          rcases List.mem_cons.1 hx with rfl | hx'
          · exact le_refl _
          · exact le_trans (not_lt.1 hlt) (hb3 x hx')

/-- C3: the dual translator's cache. (i) From a fresh translator, two
`text_to_sign` calls with identical arguments within the TTL: the first call
hits nothing, the second increments `cache_hits` exactly once and returns
the identical payload.  (ii) A lookup whose entry's age has reached the TTL
misses, purges the expired entry from the dict, and the surrounding
`text_to_sign` call re-computes through the service and increments
`cache_misses`.  (iii) `set` on a cache at capacity evicts exactly the
oldest-inserted entry (the one of minimal timestamp) and appends the new
one, and a `set` never grows the cache beyond its capacity. -/
theorem translation_cache_spec :
    (∀ (α : Type) (service : String → ℚ → α) (text : String) (t1 t2 : ℚ),
      t1 ≤ t2 → t2 - t1 < 3600 →
      (DualTranslator.text_to_sign service (DualTranslator.init α) text t1).2.stats.cache_hits
        = 0 ∧
      (DualTranslator.text_to_sign service
        (DualTranslator.text_to_sign service (DualTranslator.init α) text t1).2
          text t2).1 =
        (DualTranslator.text_to_sign service (DualTranslator.init α) text t1).1 ∧
      (DualTranslator.text_to_sign service
        (DualTranslator.text_to_sign service (DualTranslator.init α) text t1).2
          text t2).2.stats.cache_hits = 1) ∧
    (∀ (α : Type) (service : String → ℚ → α) (s : DualTranslator α)
        (text : String) (now ts : ℚ) (r : α),
      s.cache.lookup (TranslationCache.generate_key text "text_to_sign") =
        some (r, ts) →
      s.cache.ttl ≤ now - ts →
      (s.cache.get text "text_to_sign" now).1 = none ∧
      (s.cache.get text "text_to_sign" now).2.cache =
        s.cache.cache.filter
          (fun e => e.1 != TranslationCache.generate_key text "text_to_sign") ∧
      (DualTranslator.text_to_sign service s text now).1 = service text now ∧
      (DualTranslator.text_to_sign service s text now).2.stats.cache_misses =
        s.stats.cache_misses + 1) ∧
    (∀ (α : Type) (c : TranslationCache α) (content direction : String)
        (result : α) (now : ℚ) (b : String × α × ℚ),
      c.cache.length = c.cache_size → 0 < c.cache_size →
      TranslationCache.oldestEntry c.cache = some b →
      TranslationCache.generate_key content direction ∉ c.cache.map (·.1) →
      b ∈ c.cache ∧ (∀ e ∈ c.cache, b.2.2 ≤ e.2.2) ∧
      (c.set content direction result now).cache =
        c.cache.filter (fun e => e.1 != b.1) ++
          [(TranslationCache.generate_key content direction, result, now)]) ∧
    (∀ (α : Type) (c : TranslationCache α) (content direction : String)
        (result : α) (now : ℚ),
      0 < c.cache_size → c.cache.length ≤ c.cache_size →
      (c.set content direction result now).cache.length ≤ c.cache_size) := by
  refine ⟨?_, ?_, ?_, ?_⟩
  · intro α service text t1 t2 hle hlt
    have h1 : DualTranslator.text_to_sign service (DualTranslator.init α) text t1 =
        (service text t1,
         ⟨⟨1000, 3600, [(TranslationCache.generate_key text "text_to_sign",
            service text t1, t1)]⟩, ⟨1, 1, 0, 1⟩⟩) := by
      simp [DualTranslator.text_to_sign, DualTranslator.init,
        TranslationCache.get, TranslationCache.lookup, TranslationCache.set,
        TranslationCache.evictIfFull, TranslationCache.dictAssign]
    rw [h1]
    have h2 : (⟨⟨1000, 3600, [(TranslationCache.generate_key text "text_to_sign",
          service text t1, t1)]⟩, ⟨1, 1, 0, 1⟩⟩ : DualTranslator α).cache.get
          text "text_to_sign" t2 =
        (some (service text t1),
         ⟨1000, 3600, [(TranslationCache.generate_key text "text_to_sign",
           service text t1, t1)]⟩) := by
      simp [TranslationCache.get, TranslationCache.lookup, hlt]
    refine ⟨rfl, ?_, ?_⟩ <;>
      simp [DualTranslator.text_to_sign, h2]
  · intro α service s text now ts r hlook hexp
    have hget : s.cache.get text "text_to_sign" now =
        (none,
         ⟨s.cache.cache_size, s.cache.ttl,
          s.cache.cache.filter
            (fun e => e.1 != TranslationCache.generate_key text "text_to_sign")⟩) := by
      simp [TranslationCache.get, hlook, not_lt.2 hexp]
    refine ⟨by rw [hget], by rw [hget], ?_, ?_⟩ <;>
      simp [DualTranslator.text_to_sign, hget]
  · intro α c content direction result now b hlen hsz hold hkey
    have hne : c.cache ≠ [] := by
      intro h
      rw [h] at hlen
      simp at hlen
      omega
    obtain ⟨b', hb1, hb2, hb3⟩ := TranslationCache.oldestEntry_spec c.cache hne
    rw [hold] at hb1
    cases hb1
    refine ⟨hb2, hb3, ?_⟩
    have hfull : c.cache.length ≥ c.cache_size := le_of_eq hlen.symm
    have hfind : ((c.cache.filter (fun e => e.1 != b.1)).find?
        (fun e => e.1 == TranslationCache.generate_key content direction)) = none := by
      rw [List.find?_eq_none]
      intro p hp
      simp only [beq_iff_eq]
      intro hpe
      exact hkey (hpe ▸ List.mem_map_of_mem (·.1) (List.mem_of_mem_filter hp))
    have hE : c.evictIfFull = c.cache.filter (fun e => e.1 != b.1) := by
      simp [TranslationCache.evictIfFull, hfull, hold]
    rw [TranslationCache.set, hE, TranslationCache.dictAssign, hfind]
    simp
  · intro α c content direction result now hsz hle
    by_cases hfull : c.cache.length ≥ c.cache_size
    · have hne : c.cache ≠ [] := by
        intro h
        rw [h] at hfull
        simp at hfull
        omega
      obtain ⟨b, hb1, hb2, _⟩ := TranslationCache.oldestEntry_spec c.cache hne
      have hdrop : (c.cache.filter (fun e => e.1 != b.1)).length < c.cache.length :=
        List.length_filter_lt_length_iff_exists.2 ⟨b, hb2, by simp⟩
      have hE : c.evictIfFull = c.cache.filter (fun e => e.1 != b.1) := by
        simp [TranslationCache.evictIfFull, hfull, hb1]
      by_cases hfind : (((c.cache.filter (fun e => e.1 != b.1)).find?
          (fun e => e.1 == TranslationCache.generate_key content direction)).isSome)
      · rw [TranslationCache.set, hE, TranslationCache.dictAssign, if_pos hfind]
        simp only [List.length_map]
        omega
      · rw [Bool.not_eq_true] at hfind
        rw [TranslationCache.set, hE, TranslationCache.dictAssign,
          if_neg (by rw [hfind]; exact Bool.false_ne_true)]
        simp only [List.length_append, List.length_singleton]
        omega
    · push_neg at hfull
      have hE : c.evictIfFull = c.cache := by
        simp [TranslationCache.evictIfFull, not_le.2 hfull]
      by_cases hfind : ((c.cache.find?
          (fun e => e.1 == TranslationCache.generate_key content direction)).isSome)
      · rw [TranslationCache.set, hE, TranslationCache.dictAssign, if_pos hfind]
        simp only [List.length_map]
        omega
      · rw [Bool.not_eq_true] at hfind
        rw [TranslationCache.set, hE, TranslationCache.dictAssign,
          if_neg (by rw [hfind]; exact Bool.false_ne_true)]
        simp only [List.length_append, List.length_singleton]
        omega

/-- Witness for C3: a fresh translator, `text_to_sign` twice on `"hi"` at
times 0 and 1 (within the 3600 s TTL) with a constant service: the second
call's state shows `cache_hits = 1`. -/
theorem translation_cache_spec_witness :
    (DualTranslator.text_to_sign (fun _ _ => (7 : Nat))
      (DualTranslator.text_to_sign (fun _ _ => (7 : Nat))
        (DualTranslator.init Nat) "hi" 0).2 "hi" 1).2.stats.cache_hits = 1 :=
  (translation_cache_spec.1 Nat (fun _ _ => (7 : Nat)) "hi" 0 1
    (by norm_num) (by norm_num)).2.2

end SignAI

namespace SignAI

theorem newHistory_length (hist : List (Option String × ℚ))
    (p : Option String) (c : ℚ) :
    (newHistory hist p c).length =
      min (hist.length + 1) DEFAULT_SMOOTHING_WINDOW := by
  unfold newHistory
  rw [List.length_drop]
  simp only [List.length_append, List.length_singleton, DEFAULT_SMOOTHING_WINDOW]
  omega

theorem countStep_const (l : List (Option String × ℚ)) (lbl : String)
    (h : ∀ e ∈ l, e.1 = some lbl) (k : Nat) :
    l.foldl countStep [(lbl, k)] = [(lbl, k + l.length)] := by
  induction l generalizing k with
  | nil => simp
  | cons e rest ih =>
      have he : e.1 = some lbl := h e (List.mem_cons_self _ _)
      have hstep : countStep [(lbl, k)] e = [(lbl, k + 1)] := by
        simp [countStep, he]
      rw [List.foldl_cons, hstep,
        ih (fun x hx => h x (List.mem_cons_of_mem _ hx))]
      simp only [List.cons.injEq, Prod.mk.injEq, List.length_cons, and_true, true_and]
      omega

theorem predictionCounts_const (l : List (Option String × ℚ)) (lbl : String)
    (hne : l ≠ []) (h : ∀ e ∈ l, e.1 = some lbl) :
    predictionCounts l = [(lbl, l.length)] := by
  cases l with
  | nil => exact absurd rfl hne
  | cons e rest =>
      have he : e.1 = some lbl := h e (List.mem_cons_self _ _)
      have hstep : countStep [] e = [(lbl, 1)] := by simp [countStep, he]
      unfold predictionCounts
      rw [List.foldl_cons, hstep,
        countStep_const rest lbl (fun x hx => h x (List.mem_cons_of_mem _ hx)) 1]
      simp only [List.cons.injEq, Prod.mk.injEq, List.length_cons, and_true, true_and]
      omega

/-- C5: `_apply_smoothing` keeps the last 5 (prediction, confidence) pairs;
while fewer than 5 are stored it returns the raw prediction unchanged; once
5 are stored it returns the most frequent stored prediction whenever that
prediction's count reaches half the window size (the source's
`DEFAULT_SMOOTHING_WINDOW // 2 = 2`) — in particular a history of 5
identical labels yields that label — and otherwise (count below the
threshold, or no countable prediction) returns the current raw prediction
unchanged. -/
theorem apply_smoothing_spec (hist : List (Option String × ℚ))
    (pred : Option String) (conf : ℚ) :
    ((applySmoothing hist pred conf).2 = newHistory hist pred conf ∧
     (applySmoothing hist pred conf).2.length =
       min (hist.length + 1) DEFAULT_SMOOTHING_WINDOW) ∧
    (hist.length + 1 < DEFAULT_SMOOTHING_WINDOW →
      (applySmoothing hist pred conf).1 = pred) ∧
    (DEFAULT_SMOOTHING_WINDOW - 1 ≤ hist.length → ∀ best,
      bestEntry (predictionCounts (newHistory hist pred conf)) = some best →
      (DEFAULT_SMOOTHING_WINDOW / 2 ≤ best.2 →
        (applySmoothing hist pred conf).1 = some best.1) ∧
      (best.2 < DEFAULT_SMOOTHING_WINDOW / 2 →
        (applySmoothing hist pred conf).1 = pred)) ∧
    (DEFAULT_SMOOTHING_WINDOW - 1 ≤ hist.length →
      bestEntry (predictionCounts (newHistory hist pred conf)) = none →
      (applySmoothing hist pred conf).1 = pred) ∧
    (DEFAULT_SMOOTHING_WINDOW - 1 ≤ hist.length → ∀ lbl,
      (∀ e ∈ newHistory hist pred conf, e.1 = some lbl) →
      (applySmoothing hist pred conf).1 = some lbl) := by
  have hfull : ∀ (h : DEFAULT_SMOOTHING_WINDOW - 1 ≤ hist.length),
      ¬ (newHistory hist pred conf).length < DEFAULT_SMOOTHING_WINDOW := by
    intro h
    rw [newHistory_length]
    simp only [DEFAULT_SMOOTHING_WINDOW] at h ⊢
    omega
  refine ⟨⟨?_, ?_⟩, ?_, ?_, ?_, ?_⟩
  · unfold applySmoothing
    split
    · rfl
    · split
      · rfl
      · split <;> rfl
  · have h2 : (applySmoothing hist pred conf).2 = newHistory hist pred conf := by
      unfold applySmoothing
      split
      · rfl
      · split
        · rfl
        · split <;> rfl
    rw [h2, newHistory_length]
  · intro h
    unfold applySmoothing
    rw [if_pos]
    rw [newHistory_length]
    simp only [DEFAULT_SMOOTHING_WINDOW] at h ⊢
    omega
  · intro h best hbe
    constructor
    · intro hge
      simp only [applySmoothing, hfull h, if_false, hbe, hge, if_true]
    · intro hlt
      simp only [applySmoothing, hfull h, if_false, hbe, not_le.2 hlt, if_false]
  · intro h hbe
    simp only [applySmoothing, hfull h, if_false, hbe]
  · intro h lbl hall
    have hne : newHistory hist pred conf ≠ [] := by
      intro hcon
      have hl := newHistory_length hist pred conf
      rw [hcon] at hl
      simp only [List.length_nil, DEFAULT_SMOOTHING_WINDOW] at hl
      omega
    have hlen5 : (newHistory hist pred conf).length = 5 := by
      rw [newHistory_length]
      simp only [DEFAULT_SMOOTHING_WINDOW] at h ⊢
      omega
    have hbe : bestEntry (predictionCounts (newHistory hist pred conf)) =
        some (lbl, 5) := by
      rw [predictionCounts_const _ lbl hne hall, hlen5]
      rfl
    simp only [applySmoothing, hfull h, if_false, hbe]
    norm_num [DEFAULT_SMOOTHING_WINDOW]

/-- Witness for C5: a history of four `"hello"` predictions plus a raw
`"hello"` — five identical labels — smooths to `"hello"`. -/
theorem apply_smoothing_spec_witness :
    (applySmoothing
      [(some "hello", 9/10), (some "hello", 9/10),
       (some "hello", 9/10), (some "hello", 9/10)]
      (some "hello") (9/10)).1 = some "hello" :=
  (apply_smoothing_spec
    [(some "hello", 9/10), (some "hello", 9/10),
     (some "hello", 9/10), (some "hello", 9/10)]
    (some "hello") (9/10)).2.2.2.2 (by decide) "hello" (by decide)

end SignAI

namespace SignAI

/-- C6: `normalize` applied to a zero-RMS buffer returns it unchanged;
applied to any non-zero-RMS buffer it scales every sample by the factor
`10^(target_db/20) / RMS` capped at exactly 3.0 — the cap is exactly 3
whenever the implied gain exceeds 3 — and hard-clips, so every output sample
lies in [−1, 1].  (The source's `except` arm returning the input unchanged
is unreachable in this total model; the claim's degradation clause is about
that arm.) -/
theorem normalize_spec (l : List ℝ) (target_db : ℝ) :
    (rms l = 0 → normalize true l target_db = l) ∧
    (rms l ≠ 0 →
      normalize true l target_db =
        l.map (fun x => clip (x * scaleFactor l target_db)) ∧
      (∀ y ∈ normalize true l target_db, -1 ≤ y ∧ y ≤ 1) ∧
      (3 < rawScale l target_db → scaleFactor l target_db = 3)) := by
  refine ⟨fun h => by simp [normalize, h], fun h => ⟨by simp [normalize, h], ?_, ?_⟩⟩
  · intro y hy
    simp only [normalize, Bool.true_eq_false, if_false, h, List.mem_map] at hy
    obtain ⟨x, _, rfl⟩ := hy
    constructor
    · exact le_min (le_max_right _ _) (by norm_num)
    · exact min_le_right _ _
  · intro hgt
    exact min_eq_right (le_of_lt hgt)

/-- Witness for C6: the all-zero buffer `[0, 0]` has zero RMS and is
returned unchanged; the buffer `[1/10]` at `target_db = 0` has raw scale
`10 > 3`, so the applied factor caps at exactly 3. -/
theorem normalize_spec_witness :
    normalize true [(0 : ℝ), 0] (-3) = [0, 0] ∧
    scaleFactor [(1/10 : ℝ)] 0 = 3 := by
  have hrms0 : rms [(0 : ℝ), 0] = 0 := by
    simp [rms]
  have hrms : rms [(1/10 : ℝ)] = 1/10 := by
    simp only [rms, List.map_cons, List.map_nil, List.sum_cons, List.sum_nil,
      List.length_singleton, Nat.cast_one, add_zero, div_one]
    rw [Real.sqrt_sq (by norm_num)]
  have hraw : (3 : ℝ) < rawScale [(1/10 : ℝ)] 0 := by
    rw [rawScale, hrms]
    norm_num [Real.rpow_natCast]
  exact ⟨(normalize_spec [(0 : ℝ), 0] (-3)).1 hrms0,
    ((normalize_spec [(1/10 : ℝ)] 0).2 (by rw [hrms]; norm_num)).2.2 hraw⟩

end SignAI

namespace SignAI

/-- C7: for a non-empty reference and a hypothesis with at least one word,
`evaluate_bleu` returns the geometric mean of the 1..4-gram precisions of
the hypothesis against the reference (the source forms `i`-grams for
`i = 1..min(4, hypothesis word count)` — no longer n-grams exist) multiplied
by the brevity penalty `exp(1 − ref_len/hyp_len)` exactly when the
hypothesis has fewer words than the reference; when it is not shorter the
score is the unpenalized geometric mean.  The function is total: the call
always completes with a value. -/
theorem evaluate_bleu_spec (reference hypothesis : String)
    (href : reference ≠ "") (hhyp : hypothesis ≠ "")
    (hw : pysplit hypothesis ≠ []) :
    ((pysplit hypothesis).length < (pysplit reference).length →
      evaluate_bleu reference hypothesis 4 =
        geometricMean (precisions (pysplit reference) (pysplit hypothesis) 4) *
          Real.exp (1 - ((pysplit reference).length : ℝ) /
            (pysplit hypothesis).length)) ∧
    (¬ (pysplit hypothesis).length < (pysplit reference).length →
      evaluate_bleu reference hypothesis 4 =
        geometricMean (precisions (pysplit reference) (pysplit hypothesis) 4)) ∧
    (precisions (pysplit reference) (pysplit hypothesis) 4).length =
      min 4 (pysplit hypothesis).length := by
  have hguard : ¬ (reference = "" ∨ hypothesis = "") := by
    rintro (h | h) <;> [exact href h; exact hhyp h]
  have hlen : 0 < (pysplit hypothesis).length := List.length_pos.2 hw
  have hps : precisions (pysplit reference) (pysplit hypothesis) 4 ≠ [] := by
    unfold precisions
    rw [Ne, List.map_eq_nil_iff, List.range'_eq_nil]
    omega
  refine ⟨?_, ?_, ?_⟩
  · intro hshort
    rw [evaluate_bleu, if_neg hguard, if_neg hw, if_neg hps,
      brevityPenalty, if_pos hshort]
  · intro hshort
    rw [evaluate_bleu, if_neg hguard, if_neg hw, if_neg hps,
      brevityPenalty, if_neg hshort, mul_one]
  · unfold precisions
    rw [List.length_map, List.length_range']

/-- Witness for C7: reference `"a b c"` and the shorter hypothesis `"a"`:
the score is the geometric mean of the 1-gram precision times the brevity
penalty, and exactly `min 4 1 = 1` precision is formed. -/
theorem evaluate_bleu_spec_witness :
    evaluate_bleu "a b c" "a" 4 =
      geometricMean (precisions (pysplit "a b c") (pysplit "a") 4) *
        Real.exp (1 - ((pysplit "a b c").length : ℝ) / (pysplit "a").length) ∧
    (precisions (pysplit "a b c") (pysplit "a") 4).length = 1 := by
  have h := evaluate_bleu_spec "a b c" "a" (by decide) (by decide) (by decide)
  exact ⟨h.1 (by decide), by rw [h.2.2]; decide⟩

end SignAI

namespace SignAI

/-- C8: the application-level fallback handler answers every uncaught
exception with the same fixed generic 500 envelope — the response is
identical for any two distinct exceptions and never contains the
exception's type or message — whereas the route-level catch of
`translate_text`, composed with the HTTP-exception handler, produces a 500
whose error text embeds the caught exception's message, so two exceptions
with different messages produce different route-level responses. -/
theorem general_handler_no_leak :
    (∀ e1 e2 : PyException,
      general_exception_handler e1 = general_exception_handler e2) ∧
    (∀ e : PyException,
      general_exception_handler e = ⟨false, "服务器内部错误", 500⟩) ∧
    (∀ e : PyException,
      http_exception_handler (translate_text_catch e) =
        ⟨false, "翻译失败: " ++ e.message, 500⟩) ∧
    (∃ f1 f2 : PyException,
      http_exception_handler (translate_text_catch f1) ≠
        http_exception_handler (translate_text_catch f2)) := by
  refine ⟨fun e1 e2 => rfl, fun e => rfl, fun e => rfl,
    ⟨⟨"ValueError", "x"⟩, ⟨"ValueError", "y"⟩, ?_⟩⟩
  decide

theorem l2norm_nonneg (a : List ℝ) : 0 ≤ l2norm a := Real.sqrt_nonneg _

theorem l2norm_smul (c : ℝ) (hc : 0 ≤ c) (q : List ℝ) :
    l2norm (q.map (fun x => c * x)) = c * l2norm q := by
  unfold l2norm
  rw [List.map_map]
  have hsq : ((fun x => x ^ 2) ∘ fun x => c * x) = fun x => c ^ 2 * x ^ 2 := by
    funext x
    simp [mul_pow]
  rw [hsq, List.sum_map_mul_left, Real.sqrt_mul (by positivity),
    Real.sqrt_sq hc]

theorem sum_sq_eq_zero {l : List ℝ} (h : (l.map (fun x => x ^ 2)).sum = 0) :
    ∀ x ∈ l, x = 0 := by
  induction l with
  | nil => intro x hx; cases hx
  | cons a rest ih =>
      rw [List.map_cons, List.sum_cons] at h
      have ha : (0 : ℝ) ≤ a ^ 2 := sq_nonneg a
      have hrest : (0 : ℝ) ≤ (rest.map (fun x => x ^ 2)).sum :=
        List.sum_nonneg (by
          intro x hx
          obtain ⟨y, _, rfl⟩ := List.mem_map.1 hx
          exact sq_nonneg y)
      have h2 := (add_eq_zero_iff_of_nonneg ha hrest).1 h
      intro x hx
      rcases List.mem_cons.1 hx with rfl | hx'
      · exact (pow_eq_zero_iff two_ne_zero).1 h2.1
      · exact ih h2.2 x hx'

/-- C10: `verify_speaker` with an unknown speaker id, or a profile with no
stored mean embedding, returns `(False, 0.0)`; and the computed similarity
is invariant under positive scaling of the query embedding, because the
query is first re-normalized to unit length (a zero query skips the
normalization but yields the same zero similarity either way). -/
theorem verify_speaker_spec :
    (∀ (idx : List (String × SpeakerProfile)) (id : String) (q : List ℝ)
        (θ : ℝ),
      idx.find? (fun p => p.1 == id) = none →
      verify_speaker idx id q θ = (false, 0)) ∧
    (∀ (idx : List (String × SpeakerProfile)) (id : String) (q : List ℝ)
        (θ : ℝ) (p : String × SpeakerProfile),
      idx.find? (fun p => p.1 == id) = some p →
      p.2.embedding = none →
      verify_speaker idx id q θ = (false, 0)) ∧
    (∀ (idx : List (String × SpeakerProfile)) (id : String) (q : List ℝ)
        (θ : ℝ) (c : ℝ), 0 < c →
      verify_speaker idx id (q.map (fun x => c * x)) θ =
        verify_speaker idx id q θ) := by
  refine ⟨?_, ?_, ?_⟩
  · intro idx id q θ hfind
    simp [verify_speaker, hfind]
  · intro idx id q θ p hfind hemb
    simp [verify_speaker, hfind, hemb]
  · intro idx id q θ c hc
    cases hfind : idx.find? (fun p => p.1 == id) with
    | none =>
        unfold verify_speaker
        rw [hfind]
    | some p =>
        cases hemb : p.2.embedding with
        | none =>
            unfold verify_speaker
            rw [hfind]
            simp [hemb]
        | some emb =>
            have hkey : (if 0 < l2norm (q.map (fun x => c * x))
                  then (q.map (fun x => c * x)).map
                    (fun x => x / l2norm (q.map (fun x => c * x)))
                  else q.map (fun x => c * x)) =
                (if 0 < l2norm q then q.map (fun x => x / l2norm q) else q) := by
              rw [l2norm_smul c (le_of_lt hc) q]
              by_cases hq : 0 < l2norm q
              · rw [if_pos (mul_pos hc hq), if_pos hq, List.map_map]
                apply List.map_congr_left
                intro x _
                field_simp
                ring
              · have hz : l2norm q = 0 :=
                  le_antisymm (not_lt.1 hq) (l2norm_nonneg q)
                have hall : ∀ x ∈ q, x = 0 := by
                  apply sum_sq_eq_zero
                  have := hz
                  unfold l2norm at this
                  have hnn : (0 : ℝ) ≤ (q.map (fun x => x ^ 2)).sum :=
                    List.sum_nonneg (by
                      intro x hx
                      obtain ⟨y, _, rfl⟩ := List.mem_map.1 hx
                      exact sq_nonneg y)
                  have := Real.sqrt_eq_zero hnn |>.1 this
                  exact this
                rw [hz, mul_zero, if_neg (lt_irrefl 0), if_neg (lt_irrefl 0)]
                calc q.map (fun x => c * x) = q.map (fun x => x) :=
                      List.map_congr_left (fun x hx => by rw [hall x hx, mul_zero])
                  _ = q := by simp
            unfold verify_speaker
            rw [hfind]
            simp only [hemb]
            rw [hkey]

/-- Witness for C10: an empty index returns `(False, 0.0)` for any query,
and scaling the query `[3]` by `c = 2 > 0` leaves the verification against
a stored unit embedding `[1]` unchanged. -/
theorem verify_speaker_spec_witness :
    verify_speaker [] "alice" [(3 : ℝ)] (7/10) = (false, 0) ∧
    verify_speaker [("s", ⟨some [(1 : ℝ)]⟩)] "s"
        (([(3 : ℝ)]).map (fun x => 2 * x)) (7/10) =
      verify_speaker [("s", ⟨some [(1 : ℝ)]⟩)] "s" [(3 : ℝ)] (7/10) :=
  ⟨verify_speaker_spec.1 [] "alice" [(3 : ℝ)] (7/10) rfl,
   verify_speaker_spec.2.2 [("s", ⟨some [(1 : ℝ)]⟩)] "s" [(3 : ℝ)] (7/10) 2
     (by norm_num)⟩

end SignAI

namespace SignAI

theorem classifyStep_multiset (v : Vocabulary) (st : SentenceStructure)
    (w : String) (h : categoryCount v w ≤ 1) :
    (↑(allParts (classifyStep v st w)) : Multiset String) =
      ↑(allParts st) + {w} := by
  by_cases h1 : w ∈ v.time_expressions
  · have h2 : w ∉ v.place_expressions := fun hc => by
      unfold categoryCount at h
      rw [if_pos h1, if_pos hc] at h
      split_ifs at h <;> omega
    have h3 : ¬ (w ∈ v.pronouns ∨ w ∈ v.nouns) := fun hc => by
      unfold categoryCount at h
      rw [if_pos h1, if_pos hc] at h
      split_ifs at h <;> omega
    have h4 : w ∉ v.verbs := fun hc => by
      unfold categoryCount at h
      rw [if_pos h1, if_pos hc] at h
      split_ifs at h <;> omega
    have hstep : classifyStep v st w = { st with time := st.time ++ [w] } := by
      simp [classifyStep, h1, h2, h3, h4]
    rw [hstep]
    simp only [allParts, ← Multiset.coe_add, ← Multiset.coe_singleton]
    abel
  · by_cases h2 : w ∈ v.place_expressions
    · have h3 : ¬ (w ∈ v.pronouns ∨ w ∈ v.nouns) := fun hc => by
        unfold categoryCount at h
        rw [if_pos h2, if_pos hc] at h
        split_ifs at h <;> omega
      have h4 : w ∉ v.verbs := fun hc => by
        unfold categoryCount at h
        rw [if_pos h2, if_pos hc] at h
        split_ifs at h <;> omega
      have hstep : classifyStep v st w = { st with place := st.place ++ [w] } := by
        simp [classifyStep, h1, h2, h3, h4]
      rw [hstep]
      simp only [allParts, ← Multiset.coe_add, ← Multiset.coe_singleton]
      abel
    · by_cases h3 : w ∈ v.pronouns ∨ w ∈ v.nouns
      · have h4 : w ∉ v.verbs := fun hc => by
          unfold categoryCount at h
          rw [if_pos h3, if_pos hc] at h
          split_ifs at h <;> omega
        by_cases hs : st.subject = [] ∧ st.object = []
        · have hstep : classifyStep v st w =
              { st with subject := st.subject ++ [w] } := by
            simp [classifyStep, h1, h2, h3, h4, hs.1, hs.2]
          rw [hstep]
          simp only [allParts, ← Multiset.coe_add, ← Multiset.coe_singleton]
          abel
        · by_cases ho : st.object = []
          · have hsub : ¬ st.subject = [] := fun hsu => hs ⟨hsu, ho⟩
            have hstep : classifyStep v st w =
                { st with object := st.object ++ [w] } := by
              simp [classifyStep, h1, h2, h3, h4, hsub, ho]
            rw [hstep]
            simp only [allParts, ← Multiset.coe_add, ← Multiset.coe_singleton]
            abel
          · have hstep : classifyStep v st w =
                { st with other := st.other ++ [w] } := by
              simp [classifyStep, h1, h2, h3, h4, hs, ho]
            rw [hstep]
            simp only [allParts, ← Multiset.coe_add, ← Multiset.coe_singleton]
            abel
      · by_cases h4 : w ∈ v.verbs
        · have hstep : classifyStep v st w =
              { st with verb := st.verb ++ [w] } := by
            simp [classifyStep, h1, h2, h3, h4]
          rw [hstep]
          simp only [allParts, ← Multiset.coe_add, ← Multiset.coe_singleton]
          abel
        · have hstep : classifyStep v st w =
              { st with other := st.other ++ [w] } := by
            simp [classifyStep, h1, h2, h3, h4]
          rw [hstep]
          simp only [allParts, ← Multiset.coe_add, ← Multiset.coe_singleton]
          abel

theorem foldl_classify_multiset (v : Vocabulary) (l : List String)
    (st : SentenceStructure) (h : ∀ w ∈ l, categoryCount v w ≤ 1) :
    (↑(allParts (l.foldl (classifyStep v) st)) : Multiset String) =
      ↑(allParts st) + ↑l := by
  induction l generalizing st with
  | nil => simp
  | cons w rest ih =>
      rw [List.foldl_cons,
        ih _ (fun x hx => h x (List.mem_cons_of_mem _ hx)),
        classifyStep_multiset v st w (h w (List.mem_cons_self _ _)),
        ← Multiset.cons_coe, ← Multiset.singleton_add, add_assoc]

theorem orderedParts_multiset (lang : SignLanguage) (st : SentenceStructure) :
    (↑(orderedParts lang st) : Multiset String) = ↑(allParts st) := by
  cases lang with
  | ASL =>
      simp only [orderedParts, allParts, ← Multiset.coe_add]
      abel
  | CSL =>
      simp only [orderedParts, allParts]

/-- C9: for every sentence whose extracted tokens each satisfy at most one
of the classifier's membership tests (time, place, pronoun-or-noun, verb),
`convert_to_sign_language_word_order` re-emits exactly the extracted tokens:
the ordered parts form the same multiset as the token list (nothing
duplicated or dropped; unclassified tokens ride in the `other` bucket), for
both the CSL and ASL orderings, and the returned string is those parts
space-joined (the original sentence only when no token was extracted). -/
theorem word_order_preserves_tokens (v : Vocabulary) (lang : SignLanguage)
    (sentence : String)
    (h : ∀ w ∈ findWords sentence, categoryCount v w ≤ 1) :
    (↑(orderedParts lang (analyze_sentence_structure v sentence)) :
        Multiset String) = ↑(findWords sentence) ∧
    (orderedParts lang (analyze_sentence_structure v sentence) ≠ [] →
      convert_to_sign_language_word_order v lang sentence =
        String.intercalate " "
          (orderedParts lang (analyze_sentence_structure v sentence))) ∧
    (orderedParts lang (analyze_sentence_structure v sentence) = [] →
      convert_to_sign_language_word_order v lang sentence = sentence) := by
  refine ⟨?_, ?_, ?_⟩
  · rw [orderedParts_multiset, analyze_sentence_structure,
      foldl_classify_multiset v _ _ h]
    simp [allParts]
  · intro hne
    simp [convert_to_sign_language_word_order, hne]
  · intro hnil
    simp [convert_to_sign_language_word_order, hnil]

/-- Witness for C9: the sentence `"今天 我 去 学校"` over the seeded CSL
vocabulary — each token lies in exactly one category — reorders to a string
whose token multiset equals the extracted tokens. -/
theorem word_order_preserves_tokens_witness :
    (↑(orderedParts SignLanguage.CSL
        (analyze_sentence_structure cslVocabulary "今天 我 去 学校")) :
      Multiset String) = ↑(findWords "今天 我 去 学校") :=
  (word_order_preserves_tokens cslVocabulary SignLanguage.CSL "今天 我 去 学校"
    (by decide)).1

end SignAI
